import Mathlib

/-
Shallow embedding of the bulk reconciliation engine found (duplicated) in
src/app.py (`process_upload`) and src/bulk-upload-from-file.py
(`load_excel`, `expand_per_asset`, `upsert_data`).

Modelling conventions:
- the persisted table `tbl_downtime_reason` is a list of `Row` (a SQL table
  is a bag; list order is irrelevant to every property proved below);
- timestamps (`NOW()`) are a `Nat` parameter `now` passed to each call;
- the dynamic values the web caller sends as `asset_ids` are modelled as
  `Option Int`: `some n` means Python's `int(a)` returns `n`, `none` means
  `int(a)` raises `ValueError`;
- a blank spreadsheet cell is `none : Option String`; pandas `astype(str)`
  renders the NaN a blank cell reads as to the literal text "nan";
- storage failures are injected through an optional `Fault` naming which of
  the four SQL statements of the transaction raises; `engine.begin()`
  commits the draft state on normal exit and rolls back to the entry state
  when a statement raises, which is exactly how `runTransaction` is written.
-/

deriving instance DecidableEq for Except

namespace Upload

/-- A staged candidate: one record of the dict built at app.py:266-270 and
bulk-upload-from-file.py:121-125 (columns of `temp_downtime_reason`). -/
structure Candidate where
  name : String
  asset_id : Int
  delete_status_id : Int
deriving DecidableEq, Repr

/-- A persisted row of `tbl_downtime_reason`. -/
structure Row where
  name : String
  asset_id : Int
  delete_status_id : Int
  created_at : Nat
  updated_at : Nat
deriving DecidableEq, Repr

/-- The merge key `(name, asset_id)` of a candidate. -/
def Candidate.key (c : Candidate) : String × Int := (c.name, c.asset_id)

/-- The merge key `(name, asset_id)` of a persisted row. -/
def Row.key (m : Row) : String × Int := (m.name, m.asset_id)

/-- The join condition `m.name = t.name AND m.asset_id = t.asset_id` used by
both the NOT EXISTS subquery and the UPDATE ... FROM clause. -/
def rowMatches (m : Row) (t : Candidate) : Bool :=
  m.name == t.name && m.asset_id == t.asset_id

/-- Insert phase (app.py:293-301, bulk-upload-from-file.py:163-171):
`INSERT INTO tbl_downtime_reason SELECT ... FROM temp_downtime_reason t WHERE
NOT EXISTS (SELECT 1 FROM tbl_downtime_reason m WHERE m.name = t.name AND
m.asset_id = t.asset_id)`. The subquery scans the main table under the
statement snapshot, so rows inserted by this very statement are not visible
to it: every staged row whose key is absent from the pre-statement table is
selected, duplicates included. The statement rowcount is the number of rows
inserted. `freshRecords` is the SELECT of that statement: the staged rows
whose key has no match in the pre-statement main table. -/
def freshRecords (main : List Row) (temp : List Candidate) : List Candidate :=
  temp.filter (fun t => !(main.any (fun m => rowMatches m t)))

/-- The row the insert phase builds from a staged record: the staged columns
plus `created_at = updated_at = NOW()`. -/
def newRow (now : Nat) (t : Candidate) : Row :=
  { name := t.name, asset_id := t.asset_id,
    delete_status_id := t.delete_status_id,
    created_at := now, updated_at := now }

def insertPhase (main : List Row) (temp : List Candidate) (now : Nat) :
    List Row × Nat :=
  (main ++ (freshRecords main temp).map (newRow now),
   (freshRecords main temp).length)

/-- Effect of the UPDATE statement on one main-table row: if some staged row
joins with it, set `delete_status_id` from that staged row and refresh
`updated_at`; otherwise leave the row alone. -/
def applyUpdate (temp : List Candidate) (now : Nat) (m : Row) : Row :=
  match temp.find? (fun t => rowMatches m t) with
  | some t => { m with delete_status_id := t.delete_status_id, updated_at := now }
  | none => m

/-- Update phase (app.py:305-311, bulk-upload-from-file.py:175-181):
`UPDATE tbl_downtime_reason m SET delete_status_id = t.delete_status_id,
updated_at = NOW() FROM temp_downtime_reason t WHERE m.name = t.name AND
m.asset_id = t.asset_id`. Each main-table row joined by at least one staged
row is updated once; the statement rowcount is the number of such rows. -/
def updatePhase (main : List Row) (temp : List Candidate) (now : Nat) :
    List Row × Nat :=
  (main.map (applyUpdate temp now),
   (main.filter (fun m => temp.any (fun t => rowMatches m t))).length)

/-- The four SQL statements of the transaction, as fault-injection points. -/
inductive Fault
  | createTemp
  | stageCopy
  | insertNew
  | updateExisting
deriving DecidableEq, Repr

/-- The storage-error text the web handler builds at app.py:326, the text
"Database error: " followed by the exception text, for a failure of each
statement. -/
def faultMsg : Fault → String
  | Fault.createTemp => "Database error: CREATE TEMP TABLE failed"
  | Fault.stageCopy => "Database error: INSERT INTO temp failed"
  | Fault.insertNew => "Database error: INSERT INTO tbl_downtime_reason failed"
  | Fault.updateExisting => "Database error: UPDATE tbl_downtime_reason failed"

/-- Error taxonomy as observable by the caller of the web handler:
a 400 response with a message (validation), the 500 "Database error" response
built in the except-clause (storage), or an exception the handler itself
never catches, e.g. `int(a)` raising at app.py:255 (unhandled). -/
inductive UploadError
  | validation (msg : String)
  | storage (msg : String)
  | unhandled (msg : String)
deriving DecidableEq, Repr

/-- The JSON payload of a successful `/api/upload/process` response
(app.py:315-322). -/
structure UploadResult where
  inserted : Nat
  updated : Nat
  total_processed : Nat
deriving DecidableEq, Repr

/-- The transaction body shared statement-for-statement by app.py:273-311
and bulk-upload-from-file.py:143-181 (the two files differ only in the
declared integer width of the temp-table columns). `engine.begin()` commits
on normal exit and rolls back every effect when any statement raises, so on
a fault the committed table is returned unchanged together with the storage
error; otherwise the statements run in order: CREATE TEMP TABLE, INSERT the
records into the temp table, the insert phase, then the update phase. -/
def runTransaction (fault : Option Fault) (main0 : List Row)
    (records : List Candidate) (now : Nat) :
    Except UploadError (Nat × Nat) × List Row :=
  if fault = some Fault.createTemp then
    (Except.error (UploadError.storage (faultMsg Fault.createTemp)), main0)
  else if fault = some Fault.stageCopy then
    (Except.error (UploadError.storage (faultMsg Fault.stageCopy)), main0)
  else
    let temp := records
    if fault = some Fault.insertNew then
      (Except.error (UploadError.storage (faultMsg Fault.insertNew)), main0)
    else
      let r1 := insertPhase main0 temp now
      if fault = some Fault.updateExisting then
        (Except.error (UploadError.storage (faultMsg Fault.updateExisting)), main0)
      else
        let r2 := updatePhase r1.1 temp now
        (Except.ok (r1.2, r2.2), r2.1)

/-- Python's `str.strip()`: remove leading and trailing whitespace. Defined
by structural recursion over the character list of the string so that it
evaluates inside the kernel. -/
def strip (s : String) : String :=
  String.mk
    (((s.data.dropWhile Char.isWhitespace).reverse.dropWhile
        Char.isWhitespace).reverse)

/-- Label cleaning of the web handler, app.py:254:
`list(set([str(r).strip() for r in reason_names if str(r).strip()]))` —
trim every label, drop the ones that are empty after trimming, deduplicate
by exact (case-sensitive) match. Python's set iteration order is arbitrary,
so any deduplication order is a faithful model; `List.dedup` is used. -/
def cleanReasons (reason_names : List String) : List String :=
  ((reason_names.map (fun r => strip r)).filter (fun s => s != "")).dedup

/-- The conversion `[int(a) for a in asset_ids]` at app.py:255, evaluated
left to right, raising on the first non-convertible element. -/
def convertIds : List (Option Int) → Option (List Int)
  | [] => some []
  | none :: _ => none
  | some a :: rest => (convertIds rest).map (fun l => a :: l)

/-- The reasons × assets expansion of the web handler, app.py:263-270:
a nested loop over the cleaned reasons (outer) and the converted asset ids
(inner), each record carrying the hard-coded `delete_status_id = 0`. The
asset-id list is used as given — it is not deduplicated. -/
def buildRecords (reasons : List String) (asset_ids : List Int) :
    List Candidate :=
  reasons.flatMap (fun reason => asset_ids.map (fun a =>
    { name := reason, asset_id := a, delete_status_id := 0 }))

/-- The message of the `ValueError` Python's `int` raises on a
non-convertible argument. -/
def intConvMsg : String := "invalid literal for int() with base 10"

/-- The web handler `process_upload`, app.py:238-326, from the point where
`reason_names` and `asset_ids` have been read from the request body:
both emptiness checks (app.py:247-251), the cleaning (254), the int
conversion (255) which raises an exception the handler never catches,
the post-cleaning emptiness check (257), the expansion (263-270), and the
transaction (272-311) whose failure the except-clause reports as a 500
"Database error" response. Returns the caller-visible outcome plus the
committed table after the call. -/
def process_upload (fault : Option Fault) (table : List Row)
    (reason_names : List String) (asset_ids : List (Option Int)) (now : Nat) :
    Except UploadError UploadResult × List Row :=
  if reason_names.isEmpty then
    (Except.error (UploadError.validation "No reason names provided"), table)
  else if asset_ids.isEmpty then
    (Except.error (UploadError.validation "No assets selected"), table)
  else
    let reasons := cleanReasons reason_names
    match convertIds asset_ids with
    | none => (Except.error (UploadError.unhandled intConvMsg), table)
    | some assets =>
      if reasons.isEmpty then
        (Except.error
          (UploadError.validation "No valid reason names found after cleaning"),
         table)
      else
        let records := buildRecords reasons assets
        match runTransaction fault table records now with
        | (Except.error e, t) => (Except.error e, t)
        | (Except.ok (ins, upd), t) =>
          (Except.ok { inserted := ins, updated := upd,
                       total_processed := records.length }, t)

/-- The batch importer's upsert, bulk-upload-from-file.py:137-189: the same
transaction body; a failure is logged and re-raised to the caller. -/
def upsert_data (fault : Option Fault) (table : List Row)
    (records : List Candidate) (now : Nat) :
    Except UploadError (Nat × Nat) × List Row :=
  runTransaction fault table records now

/-- Rendering of one cell of the reason column by
`df[reason_col].astype(str)` (bulk-upload-from-file.py:103): a blank cell is
read by pandas as NaN, which `astype(str)` renders as the text "nan". -/
def cellToStr : Option String → String
  | some s => s
  | none => "nan"

/-- The reason-column pipeline of the batch importer,
bulk-upload-from-file.py:103-104: string-convert every cell, trim, keep the
values that are non-empty after trimming. No deduplication happens here. -/
def load_excel (cells : List (Option String)) : List String :=
  ((cells.map cellToStr).map (fun s => strip s)).filter (fun s => s != "")

/-- The importer's expansion, bulk-upload-from-file.py:114-131: nested loop
over the loaded names (outer) and the configured asset ids (inner), each row
carrying the hard-coded `delete_status_id = 0`, followed by
`drop_duplicates(subset=["name", "asset_id"])`. Every generated row has the
same `delete_status_id`, so rows sharing the key are fully equal and
deduplicating whole rows is deduplication on the key. -/
def expand_per_asset (names : List String) (asset_ids : List Int) :
    List Candidate :=
  (names.flatMap (fun n => asset_ids.map (fun a =>
    { name := n, asset_id := a, delete_status_id := 0 }))).dedup

/-- The table-level uniqueness invariant of the spec: at most one row per
`(label, target_id)` pair. -/
abbrev uniqueByKey (t : List Row) : Prop := (t.map Row.key).Nodup

/-- Pairwise-distinct merge keys over a staged candidate list. -/
abbrev nodupKeys (l : List Candidate) : Prop := (l.map Candidate.key).Nodup

/-- Whether a caller-visible outcome is a validation (400) failure. -/
def isValidation {α : Type} : Except UploadError α → Bool
  | Except.error (UploadError.validation _) => true
  | _ => false

/-- Whether a caller-visible outcome is a storage (500 "Database error")
failure. -/
def isStorage {α : Type} : Except UploadError α → Bool
  | Except.error (UploadError.storage _) => true
  | _ => false

/-- Whether a caller-visible outcome is a success. -/
def isOkResult {α : Type} : Except UploadError α → Bool
  | Except.ok _ => true
  | _ => false

/-- The building of a candidate record out of a bare `(name, asset_id)` key,
with the hard-coded `delete_status_id = 0`. -/
def mkCand0 (p : String × Int) : Candidate :=
  { name := p.1, asset_id := p.2, delete_status_id := 0 }

theorem rowMatches_iff (m : Row) (t : Candidate) :
    rowMatches m t = true ↔ m.key = t.key := by
  simp [rowMatches, Row.key, Candidate.key, Prod.ext_iff]

theorem any_rowMatches_row (temp : List Candidate) (m : Row) :
    (temp.any fun t => rowMatches m t) = true
      ↔ m.key ∈ temp.map Candidate.key := by
  simp only [List.any_eq_true, rowMatches_iff, List.mem_map]
  constructor
  · rintro ⟨t, ht, hk⟩; exact ⟨t, ht, hk.symm⟩
  · rintro ⟨t, ht, hk⟩; exact ⟨t, ht, hk.symm⟩

theorem any_rowMatches_cand (main : List Row) (t : Candidate) :
    (main.any fun m => rowMatches m t) = true
      ↔ t.key ∈ main.map Row.key := by
  simp only [List.any_eq_true, rowMatches_iff, List.mem_map]

theorem newRow_key (now : Nat) (t : Candidate) : (newRow now t).key = t.key := rfl

theorem applyUpdate_key (temp : List Candidate) (now : Nat) (m : Row) :
    (applyUpdate temp now m).key = m.key := by
  unfold applyUpdate
  split <;> rfl

theorem mem_freshRecords (main : List Row) (temp : List Candidate)
    (t : Candidate) :
    t ∈ freshRecords main temp ↔ t ∈ temp ∧ t.key ∉ main.map Row.key := by
  simp only [freshRecords, List.mem_filter, Bool.not_eq_true',
    ← Bool.not_eq_true, any_rowMatches_cand]

theorem insertPhase_keys (main : List Row) (temp : List Candidate) (now : Nat) :
    (insertPhase main temp now).1.map Row.key
      = main.map Row.key ++ (freshRecords main temp).map Candidate.key := by
  have h : Row.key ∘ newRow now = Candidate.key := funext (newRow_key now)
  simp [insertPhase, List.map_map, h]

theorem insertPhase_unique (main : List Row) (temp : List Candidate) (now : Nat)
    (hm : uniqueByKey main) (ht : nodupKeys temp) :
    ((insertPhase main temp now).1.map Row.key).Nodup := by
  rw [insertPhase_keys, List.nodup_append]
  refine ⟨hm, List.Nodup.sublist ((List.filter_sublist temp).map _) ht, ?_⟩
  intro k hk hk'
  obtain ⟨t, htf, rfl⟩ := List.mem_map.1 hk'
  exact ((mem_freshRecords main temp t).1 htf).2 hk

theorem mem_keys_insertPhase (main : List Row) (temp : List Candidate)
    (now : Nat) (t : Candidate) (htm : t ∈ temp) :
    t.key ∈ (insertPhase main temp now).1.map Row.key := by
  rw [insertPhase_keys]
  by_cases h : t.key ∈ main.map Row.key
  · exact List.mem_append_left _ h
  · exact List.mem_append_right _
      (List.mem_map_of_mem _ ((mem_freshRecords main temp t).2 ⟨htm, h⟩))

theorem updatePhase_keys (main : List Row) (temp : List Candidate) (now : Nat) :
    (updatePhase main temp now).1.map Row.key = main.map Row.key := by
  have h : Row.key ∘ applyUpdate temp now = Row.key :=
    funext (applyUpdate_key temp now)
  simp [updatePhase, List.map_map, h]

theorem length_filter_mem {α : Type} (p : α → Bool) (K S : List α)
    (hK : K.Nodup) (hS : S.Nodup)
    (hp : ∀ k, p k = true ↔ k ∈ S)
    (hsub : ∀ s ∈ S, s ∈ K) :
    (K.filter p).length = S.length := by
  have h1 : (K.filter p).Nodup :=
    List.Nodup.sublist (List.filter_sublist K) hK
  have hperm : (K.filter p).Perm S := by
    rw [List.perm_ext_iff_of_nodup h1 hS]
    intro a
    simp only [List.mem_filter, hp]
    exact ⟨fun h => h.2, fun h => ⟨hsub a h, h⟩⟩
  exact hperm.length_eq

theorem updatePhase_count (main : List Row) (temp : List Candidate) (now : Nat)
    (hm : uniqueByKey main) (ht : nodupKeys temp)
    (hsub : ∀ t ∈ temp, t.key ∈ main.map Row.key) :
    (updatePhase main temp now).2 = temp.length := by
  have step : (updatePhase main temp now).2
      = ((main.map Row.key).filter
          (fun k => k ∈ temp.map Candidate.key)).length := by
    simp only [updatePhase, ← List.countP_eq_length_filter, List.countP_map]
    apply List.countP_congr
    intro m _
    simp only [Function.comp_apply, any_rowMatches_row, decide_eq_true_eq]
  rw [step]
  have hsub' : ∀ s ∈ temp.map Candidate.key, s ∈ main.map Row.key := by
    intro s hs
    obtain ⟨t, htm, rfl⟩ := List.mem_map.1 hs
    exact hsub t htm
  have hlen := length_filter_mem
    (fun k => decide (k ∈ temp.map Candidate.key))
    (main.map Row.key) (temp.map Candidate.key) hm ht
    (fun k => decide_eq_true_iff) hsub'
  rw [hlen, List.length_map]

theorem runTransaction_none (main : List Row) (temp : List Candidate)
    (now : Nat) :
    runTransaction none main temp now
      = (Except.ok ((freshRecords main temp).length,
          (updatePhase (insertPhase main temp now).1 temp now).2),
         (updatePhase (insertPhase main temp now).1 temp now).1) := rfl

theorem runTransaction_none_counts (main : List Row) (temp : List Candidate)
    (now : Nat) (hm : uniqueByKey main) (ht : nodupKeys temp) :
    (runTransaction none main temp now).1
      = Except.ok ((freshRecords main temp).length, temp.length) := by
  rw [runTransaction_none]
  have h := updatePhase_count (insertPhase main temp now).1 temp now
    (insertPhase_unique main temp now hm ht) ht
    (fun t htm => mem_keys_insertPhase main temp now t htm)
  rw [h]

theorem runTransaction_none_unique (main : List Row) (temp : List Candidate)
    (now : Nat) (hm : uniqueByKey main) (ht : nodupKeys temp) :
    uniqueByKey (runTransaction none main temp now).2 := by
  rw [runTransaction_none]
  show ((updatePhase (insertPhase main temp now).1 temp now).1.map Row.key).Nodup
  rw [updatePhase_keys]
  exact insertPhase_unique main temp now hm ht

theorem runTransaction_none_keys (main : List Row) (temp : List Candidate)
    (now : Nat) :
    (runTransaction none main temp now).2.map Row.key
      = main.map Row.key ++ (freshRecords main temp).map Candidate.key := by
  rw [runTransaction_none]
  show (updatePhase (insertPhase main temp now).1 temp now).1.map Row.key = _
  rw [updatePhase_keys, insertPhase_keys]

theorem freshRecords_eq_nil (main : List Row) (temp : List Candidate)
    (hall : ∀ t ∈ temp, t.key ∈ main.map Row.key) :
    freshRecords main temp = [] := by
  apply List.filter_eq_nil_iff.2
  intro t htm
  simp only [Bool.not_eq_true', Bool.not_eq_false]
  exact (any_rowMatches_cand main t).2 (hall t htm)

theorem insertPhase_fst_of_fresh_nil (main : List Row)
    (temp : List Candidate) (now : Nat)
    (h : freshRecords main temp = []) :
    (insertPhase main temp now).1 = main := by
  show main ++ (freshRecords main temp).map (newRow now) = main
  rw [h]
  simp

theorem cleanReasons_nodup (rs : List String) : (cleanReasons rs).Nodup :=
  List.nodup_dedup _

theorem mem_cleanReasons (rs : List String) (s : String) :
    s ∈ cleanReasons rs ↔ s ≠ "" ∧ s ∈ rs.map (fun r => strip r) := by
  simp only [cleanReasons, List.mem_dedup, List.mem_filter, bne_iff_ne, ne_eq]
  exact and_comm

theorem convertIds_map_some (ids : List Int) :
    convertIds (ids.map some) = some ids := by
  induction ids with
  | nil => rfl
  | cons a r ih => simp [convertIds, ih]

theorem convertIds_none_iff (l : List (Option Int)) :
    convertIds l = none ↔ none ∈ l := by
  induction l with
  | nil => simp [convertIds]
  | cons o r ih =>
    cases o with
    | none => simp [convertIds]
    | some a => simp [convertIds, Option.map_eq_none', ih]

theorem buildRecords_length (reasons : List String) (ids : List Int) :
    (buildRecords reasons ids).length = reasons.length * ids.length := by
  induction reasons with
  | nil => simp [buildRecords]
  | cons r rs ih =>
    simp only [buildRecords, List.flatMap_cons, List.length_append,
      List.length_map] at ih ⊢
    rw [ih, List.length_cons, Nat.succ_mul, Nat.add_comm]

theorem buildRecords_keys (reasons : List String) (ids : List Int) :
    (buildRecords reasons ids).map Candidate.key = reasons ×ˢ ids := by
  show _ = List.product reasons ids
  simp only [buildRecords, List.product, List.map_flatMap, List.map_map]
  rfl

theorem buildRecords_nodup_keys (reasons : List String) (ids : List Int)
    (h1 : reasons.Nodup) (h2 : ids.Nodup) :
    nodupKeys (buildRecords reasons ids) := by
  show (List.map Candidate.key (buildRecords reasons ids)).Nodup
  rw [buildRecords_keys]
  exact h1.product h2

theorem mem_buildRecords_dsid (reasons : List String) (ids : List Int)
    (c : Candidate) (h : c ∈ buildRecords reasons ids) :
    c.delete_status_id = 0 := by
  simp only [buildRecords, List.mem_flatMap, List.mem_map] at h
  obtain ⟨r, _, a, _, rfl⟩ := h
  rfl

theorem mem_expand_dsid (names : List String) (ids : List Int)
    (c : Candidate) (h : c ∈ expand_per_asset names ids) :
    c.delete_status_id = 0 := by
  simp only [expand_per_asset, List.mem_dedup, List.mem_flatMap,
    List.mem_map] at h
  obtain ⟨n, _, a, _, rfl⟩ := h
  rfl

theorem expand_nodup_keys (names : List String) (ids : List Int) :
    nodupKeys (expand_per_asset names ids) := by
  apply List.Nodup.map_on ?_ (List.nodup_dedup _)
  intro x hx y hy hkey
  have hx0 := mem_expand_dsid names ids x hx
  have hy0 := mem_expand_dsid names ids y hy
  cases x; cases y
  simp only [Candidate.key, Prod.mk.injEq] at hkey
  simp_all

theorem toFinset_map' {α β : Type} [DecidableEq α] [DecidableEq β]
    (f : α → β) (l : List α) :
    (l.map f).toFinset = l.toFinset.image f := by
  ext b
  simp [List.mem_toFinset, List.mem_map, Finset.mem_image]

theorem toFinset_product {α β : Type} [DecidableEq α] [DecidableEq β]
    (l1 : List α) (l2 : List β) :
    (l1 ×ˢ l2).toFinset = l1.toFinset ×ˢ l2.toFinset := by
  ext p
  cases p
  simp [List.mem_toFinset, List.mem_product, Finset.mem_product]

theorem mkCand0_injective : Function.Injective mkCand0 := by
  intro p q h
  cases p; cases q
  simpa [mkCand0, Candidate.mk.injEq, Prod.ext_iff] using h

theorem expand_eq_dedup_map (names : List String) (ids : List Int) :
    expand_per_asset names ids = ((names ×ˢ ids).map mkCand0).dedup := by
  show _ = ((List.product names ids).map mkCand0).dedup
  simp only [expand_per_asset, List.product, List.map_flatMap, List.map_map]
  rfl

theorem expand_length (names : List String) (ids : List Int) :
    (expand_per_asset names ids).length
      = names.dedup.length * ids.dedup.length := by
  rw [expand_eq_dedup_map, ← List.card_toFinset, toFinset_map',
    Finset.card_image_of_injective _ mkCand0_injective, toFinset_product,
    Finset.card_product, List.card_toFinset, List.card_toFinset]

theorem process_upload_run (fault : Option Fault) (table : List Row)
    (rs : List String) (ids : List Int) (now : Nat)
    (h3 : cleanReasons rs ≠ []) (h2 : ids ≠ []) :
    process_upload fault table rs (ids.map some) now
      = (match runTransaction fault table
            (buildRecords (cleanReasons rs) ids) now with
         | (Except.error e, t) => (Except.error e, t)
         | (Except.ok (i, u), t) =>
           (Except.ok (UploadResult.mk i u
              (buildRecords (cleanReasons rs) ids).length), t)) := by
  have h1 : rs ≠ [] := by
    intro h
    exact h3 (by simp [h, cleanReasons])
  have e1 : rs.isEmpty = false := by simpa [List.isEmpty_iff] using h1
  have e2 : (ids.map some).isEmpty = false := by
    simpa [List.isEmpty_iff] using h2
  have e3 : (cleanReasons rs).isEmpty = false := by
    simpa [List.isEmpty_iff] using h3
  simp only [process_upload, e1, e2, e3, convertIds_map_some,
    Bool.false_eq_true, if_false]

/-- C1: the spec asserts `inserted + updated = |candidates|` with the two
phases complementary; on the code the update phase runs after the insert
phase inside the same transaction and its join also matches every row the
insert phase just added, so on an empty table a single candidate yields
`inserted = 1` and `updated = 1`, and `1 + 1 ≠ 1`. -/
theorem C1_counterexample :
    (process_upload none []
        ["A"] [some 10] 7).1
      = Except.ok { inserted := 1, updated := 1, total_processed := 1 }
    ∧ 1 + 1 ≠ 1 := by
  constructor
  · decide
  · decide

/-- C1 (amended): when the call succeeds on a table satisfying the
uniqueness invariant with duplicate-free candidate keys, `inserted` counts
the candidates whose pair was absent before the call, but `updated` counts
every row matching a candidate after the insert phase, i.e.
`updated = |candidates|`; hence `inserted + updated = |candidates| +
inserted`, which equals `|candidates|` only when `inserted = 0`. Stated for
the shared transaction body and for the web handler. -/
theorem C1_update_counts_all_matches (table : List Row)
    (temp : List Candidate) (now : Nat)
    (hm : uniqueByKey table) (ht : nodupKeys temp) :
    (runTransaction none table temp now).1
      = Except.ok ((freshRecords table temp).length, temp.length)
    ∧ (upsert_data none table temp now).1
      = Except.ok ((freshRecords table temp).length, temp.length) := by
  refine ⟨runTransaction_none_counts table temp now hm ht, ?_⟩
  show (runTransaction none table temp now).1 = _
  exact runTransaction_none_counts table temp now hm ht

/-- C1 witness. -/
theorem C1_witness :
    (runTransaction none []
        [Candidate.mk "A" 10 0] 7).1
      = Except.ok ((freshRecords [] [Candidate.mk "A" 10 0]).length,
          ([Candidate.mk "A" 10 0] : List Candidate).length) :=
  (C1_update_counts_all_matches [] [Candidate.mk "A" 10 0] 7
    (by decide) (by decide)).1

/-- C2: the claim quantifies over every caller input, including a
target-identifier list repeating an identifier; the web handler does not
deduplicate `asset_ids`, both duplicate staged rows pass the NOT EXISTS
check of the insert phase against the pre-statement table, and two rows
with the key ("A", 10) are inserted into an empty (hence unique) table. -/
theorem C2_counterexample :
    uniqueByKey ([] : List Row)
    ∧ ¬ uniqueByKey (process_upload none []
        ["A"] [some 10, some 10] 3).2 := by
  constructor
  · decide
  · decide

/-- C2 (amended): a single sequential reconcile call preserves the
at-most-one-row-per-pair invariant whenever the staged candidates have
pairwise-distinct `(label, target_id)` keys; the batch importer always
stages such candidates because its expansion drops duplicate keys, while
the web handler stages one record per occurrence of a target identifier. -/
theorem C2_uniqueness_preserved :
    (∀ (table : List Row) (temp : List Candidate) (now : Nat),
      uniqueByKey table → nodupKeys temp →
      uniqueByKey (runTransaction none table temp now).2)
    ∧ (∀ (names : List String) (ids : List Int),
        nodupKeys (expand_per_asset names ids)) := by
  constructor
  · intro table temp now hm ht
    exact runTransaction_none_unique table temp now hm ht
  · intro names ids
    exact expand_nodup_keys names ids

/-- C2 witness. -/
theorem C2_witness :
    uniqueByKey (runTransaction none []
        [Candidate.mk "A" 10 0] 3).2
    ∧ nodupKeys (expand_per_asset ["A"] [10]) :=
  ⟨C2_uniqueness_preserved.1 [] [Candidate.mk "A" 10 0] 3
      (by decide) (by decide),
   C2_uniqueness_preserved.2 ["A"] [10]⟩

/-- C3: in the web handler the candidate records are not the distinct cross
product: labels are deduplicated but target identifiers are not, so the
input `labels = ["A"]`, `target_ids = [10, 10]` yields 2 candidate records
while `|distinct labels| × |distinct target_ids| = 1 × 1 = 1`. -/
theorem C3_counterexample :
    (buildRecords (cleanReasons ["A"]) [(10 : Int), 10]).length = 2
    ∧ (cleanReasons ["A"]).length
        * ([(10 : Int), 10].dedup).length = 1 := by
  constructor
  · decide
  · decide

/-- C3 (amended): the batch importer produces exactly the distinct cross
product, of cardinality `|distinct labels| × |distinct target_ids|`; the
web handler deduplicates only the labels, producing `|distinct labels| ×
(length of the target list)` records, so a repeated target identifier
contributes extra candidate records there. -/
theorem C3_cardinality :
    (∀ (names : List String) (ids : List Int),
      (expand_per_asset names ids).length
        = names.dedup.length * ids.dedup.length)
    ∧ (∀ (rs : List String) (ids : List Int),
        (buildRecords (cleanReasons rs) ids).length
          = (cleanReasons rs).length * ids.length) := by
  constructor
  · intro names ids
    exact expand_length names ids
  · intro rs ids
    exact buildRecords_length (cleanReasons rs) ids

theorem process_upload_none (table : List Row) (rs : List String)
    (ids : List Int) (now : Nat)
    (h3 : cleanReasons rs ≠ []) (h2 : ids ≠ []) :
    process_upload none table rs (ids.map some) now
      = (Except.ok (UploadResult.mk
            (freshRecords table (buildRecords (cleanReasons rs) ids)).length
            (updatePhase
              (insertPhase table (buildRecords (cleanReasons rs) ids) now).1
              (buildRecords (cleanReasons rs) ids) now).2
            (buildRecords (cleanReasons rs) ids).length),
         (updatePhase
            (insertPhase table (buildRecords (cleanReasons rs) ids) now).1
            (buildRecords (cleanReasons rs) ids) now).1) := by
  rw [process_upload_run none table rs ids now h3 h2, runTransaction_none]

/-- C4: the spec's scenario A expects `{inserted: 6, updated: 0}` on an
empty table; the code's update phase runs after the insert phase and its
join matches the six rows just inserted, so the handler returns
`updated = 6`, not `0`. -/
theorem C4_counterexample :
    (process_upload none [] [" Jam ", "jam", "Breakdown"]
        [some 10, some 20] 1).1
      = Except.ok { inserted := 6, updated := 6, total_processed := 6 }
    ∧ (6 : Nat) ≠ 0 := by
  constructor
  · decide
  · decide

/-- C4 (amended): scenario A with `labels = [" Jam ", "jam", "Breakdown"]`
and `target_ids = [10, 20]` on an empty table gives 3 distinct trimmed
labels (case-sensitively distinct), 6 candidates, and the successful call
returns `inserted = 6` and `updated = 6` (the update phase re-counts the
six just-inserted rows). -/
theorem C4_scenario_A :
    (cleanReasons [" Jam ", "jam", "Breakdown"]).length = 3
    ∧ (buildRecords (cleanReasons [" Jam ", "jam", "Breakdown"])
        [10, 20]).length = 6
    ∧ (process_upload none [] [" Jam ", "jam", "Breakdown"]
        [some 10, some 20] 1).1
      = Except.ok { inserted := 6, updated := 6, total_processed := 6 } := by
  refine ⟨by decide, by decide, by decide⟩

/-- C5: with the prior table holding the single row ("A", 10) and the input
`labels = ["A"]`, `target_ids = [10, 10]`, the first call succeeds, and the
second identical call returns `updated = 1` while the handler's own
candidate count (its `total_processed`) is 2: `updated ≠ |candidates|`. -/
theorem C5_counterexample :
    (process_upload none
        (process_upload none [Row.mk "A" 10 0 0 0]
          ["A"] [some 10, some 10] 1).2
        ["A"] [some 10, some 10] 2).1
      = Except.ok { inserted := 0, updated := 1, total_processed := 2 }
    ∧ (1 : Nat) ≠ 2 := by
  constructor
  · decide
  · decide

/-- C5 (amended): when the target list is duplicate-free and the prior
table satisfies the uniqueness invariant, repeating a call with the same
input returns `inserted = 0` and `updated = |candidates|` on the second
call and leaves the list of `(label, target_id)` pairs of the table
unchanged. -/
theorem C5_idempotence (table : List Row) (rs : List String)
    (ids : List Int) (now1 now2 : Nat)
    (hm : uniqueByKey table) (hids : ids.Nodup)
    (h3 : cleanReasons rs ≠ []) (h2 : ids ≠ []) :
    (process_upload none
        (process_upload none table rs (ids.map some) now1).2
        rs (ids.map some) now2).1
      = Except.ok (UploadResult.mk 0
          (buildRecords (cleanReasons rs) ids).length
          (buildRecords (cleanReasons rs) ids).length)
    ∧ (process_upload none
        (process_upload none table rs (ids.map some) now1).2
        rs (ids.map some) now2).2.map Row.key
      = (process_upload none table rs (ids.map some) now1).2.map Row.key := by
  have ht : nodupKeys (buildRecords (cleanReasons rs) ids) :=
    buildRecords_nodup_keys _ _ (cleanReasons_nodup rs) hids
  have hfirst := process_upload_none table rs ids now1 h3 h2
  rw [hfirst]
  have hT1u : uniqueByKey
      (updatePhase
        (insertPhase table (buildRecords (cleanReasons rs) ids) now1).1
        (buildRecords (cleanReasons rs) ids) now1).1 := by
    show (List.map Row.key _).Nodup
    rw [updatePhase_keys]
    exact insertPhase_unique table _ now1 hm ht
  have hT1mem : ∀ t ∈ buildRecords (cleanReasons rs) ids,
      t.key ∈ (updatePhase
        (insertPhase table (buildRecords (cleanReasons rs) ids) now1).1
        (buildRecords (cleanReasons rs) ids) now1).1.map Row.key := by
    intro t htm
    rw [updatePhase_keys]
    exact mem_keys_insertPhase table _ now1 t htm
  have hsecond := process_upload_none
    (updatePhase
      (insertPhase table (buildRecords (cleanReasons rs) ids) now1).1
      (buildRecords (cleanReasons rs) ids) now1).1 rs ids now2 h3 h2
  rw [hsecond]
  have hfresh : freshRecords
      (updatePhase
        (insertPhase table (buildRecords (cleanReasons rs) ids) now1).1
        (buildRecords (cleanReasons rs) ids) now1).1
      (buildRecords (cleanReasons rs) ids) = [] :=
    freshRecords_eq_nil _ _ hT1mem
  have hins : (insertPhase
      (updatePhase
        (insertPhase table (buildRecords (cleanReasons rs) ids) now1).1
        (buildRecords (cleanReasons rs) ids) now1).1
      (buildRecords (cleanReasons rs) ids) now2).1
      = (updatePhase
          (insertPhase table (buildRecords (cleanReasons rs) ids) now1).1
          (buildRecords (cleanReasons rs) ids) now1).1 :=
    insertPhase_fst_of_fresh_nil _ _ _ hfresh
  constructor
  · have hcount := updatePhase_count
      (updatePhase
        (insertPhase table (buildRecords (cleanReasons rs) ids) now1).1
        (buildRecords (cleanReasons rs) ids) now1).1
      (buildRecords (cleanReasons rs) ids) now2 hT1u ht hT1mem
    rw [hfresh, hins, hcount]
    simp
  · rw [updatePhase_keys, hins]

/-- C5 witness. -/
theorem C5_witness :
    (process_upload none
        (process_upload none [] ["X"] ([(3 : Int)].map some) 1).2
        ["X"] ([(3 : Int)].map some) 2).1
      = Except.ok (UploadResult.mk 0
          (buildRecords (cleanReasons ["X"]) [(3 : Int)]).length
          (buildRecords (cleanReasons ["X"]) [(3 : Int)]).length) :=
  (C5_idempotence [] ["X"] [(3 : Int)] 1 2
    (by decide) (by decide) (by decide) (by decide)).1

/-- C6: any failure during staging, the insert phase, or the update phase
rolls the transaction back (no row from an earlier completed phase remains
visible) and is reported to the caller as a single StorageError; stated for
the shared transaction body under every fault, and for the web handler on
every input that reaches the transaction. -/
theorem C6_atomic_rollback :
    (∀ (f : Fault) (table : List Row) (records : List Candidate) (now : Nat),
      runTransaction (some f) table records now
        = (Except.error (UploadError.storage (faultMsg f)), table))
    ∧ (∀ (f : Fault) (table : List Row) (rs : List String) (ids : List Int)
        (now : Nat), cleanReasons rs ≠ [] → ids ≠ [] →
        process_upload (some f) table rs (ids.map some) now
          = (Except.error (UploadError.storage (faultMsg f)), table)) := by
  have h1 : ∀ (f : Fault) (table : List Row) (records : List Candidate)
      (now : Nat),
      runTransaction (some f) table records now
        = (Except.error (UploadError.storage (faultMsg f)), table) := by
    intro f table records now
    cases f <;> rfl
  refine ⟨h1, ?_⟩
  intro f table rs ids now h3 h2
  rw [process_upload_run (some f) table rs ids now h3 h2, h1]

/-- C6 witness. -/
theorem C6_witness :
    process_upload (some Fault.updateExisting) []
        ["A"] ([(5 : Int)].map some) 0
      = (Except.error
          (UploadError.storage (faultMsg Fault.updateExisting)), []) :=
  C6_atomic_rollback.2 Fault.updateExisting [] ["A"] [(5 : Int)] 0
    (by decide) (by decide)

/-- C7: a non-integer target identifier does abort the call before any
storage operation, but `int(a)` at app.py:255 raises outside the handler's
try-block, so the failure surfaces as an uncaught conversion error (a
generic HTTP 500), not as the ValidationError-style 400 response. -/
theorem C7_counterexample :
    (process_upload none [] ["A"] [none] 0).1
      = Except.error (UploadError.unhandled intConvMsg)
    ∧ isValidation (process_upload none [] ["A"] [none] 0).1 = false := by
  constructor
  · decide
  · decide

/-- C7 (amended): an empty label list, an empty target list, or a label
list that is empty after trimming (with convertible targets) each fail with
ValidationError, and a non-integer target identifier fails with an uncaught
conversion error; in every such case no storage operation is performed: the
committed table is unchanged, no storage error can surface even when every
storage statement is set to fail, and the call does not succeed. -/
theorem C7_validation_boundary (fault : Option Fault) (table : List Row)
    (rs : List String) (assets : List (Option Int)) (now : Nat)
    (hbad : rs = [] ∨ assets = [] ∨ none ∈ assets ∨ cleanReasons rs = []) :
    ((process_upload fault table rs assets now).2 = table
      ∧ isOkResult (process_upload fault table rs assets now).1 = false
      ∧ isStorage (process_upload fault table rs assets now).1 = false)
    ∧ (rs = [] →
        (process_upload fault table rs assets now).1
          = Except.error (UploadError.validation "No reason names provided"))
    ∧ (rs ≠ [] → assets = [] →
        (process_upload fault table rs assets now).1
          = Except.error (UploadError.validation "No assets selected"))
    ∧ (rs ≠ [] → assets ≠ [] → none ∈ assets →
        (process_upload fault table rs assets now).1
          = Except.error (UploadError.unhandled intConvMsg))
    ∧ (rs ≠ [] → assets ≠ [] → ¬ none ∈ assets → cleanReasons rs = [] →
        (process_upload fault table rs assets now).1
          = Except.error (UploadError.validation
              "No valid reason names found after cleaning")) := by
  by_cases hrs : rs = []
  · subst hrs
    have hval : process_upload fault table [] assets now
        = (Except.error
            (UploadError.validation "No reason names provided"), table) := by
      simp [process_upload]
    exact ⟨⟨by rw [hval], by rw [hval]; rfl, by rw [hval]; rfl⟩,
      fun _ => by rw [hval], fun h _ => absurd rfl h,
      fun h _ _ => absurd rfl h, fun h _ _ _ => absurd rfl h⟩
  · by_cases has : assets = []
    · subst has
      have e1 : rs.isEmpty = false := by simpa [List.isEmpty_iff] using hrs
      have hval : process_upload fault table rs [] now
          = (Except.error
              (UploadError.validation "No assets selected"), table) := by
        simp [process_upload, e1]
      exact ⟨⟨by rw [hval], by rw [hval]; rfl, by rw [hval]; rfl⟩,
        fun h => absurd h hrs, fun _ _ => by rw [hval],
        fun _ hne _ => absurd rfl hne, fun _ hne _ _ => absurd rfl hne⟩
    · by_cases hnone : none ∈ assets
      · have hconv : convertIds assets = none :=
          (convertIds_none_iff assets).2 hnone
        have e1 : rs.isEmpty = false := by simpa [List.isEmpty_iff] using hrs
        have e2 : assets.isEmpty = false := by
          simpa [List.isEmpty_iff] using has
        have hval : process_upload fault table rs assets now
            = (Except.error (UploadError.unhandled intConvMsg), table) := by
          simp [process_upload, e1, e2, hconv]
        exact ⟨⟨by rw [hval], by rw [hval]; rfl, by rw [hval]; rfl⟩,
          fun h => absurd h hrs, fun _ h => absurd h has,
          fun _ _ _ => by rw [hval], fun _ _ hn _ => absurd hnone hn⟩
      · have hclean : cleanReasons rs = [] := by
          rcases hbad with h | h | h | h
          · exact absurd h hrs
          · exact absurd h has
          · exact absurd h hnone
          · exact h
        obtain ⟨L, hL⟩ : ∃ L, convertIds assets = some L := by
          cases hc : convertIds assets with
          | none => exact absurd ((convertIds_none_iff assets).1 hc) hnone
          | some L => exact ⟨L, rfl⟩
        have e1 : rs.isEmpty = false := by simpa [List.isEmpty_iff] using hrs
        have e2 : assets.isEmpty = false := by
          simpa [List.isEmpty_iff] using has
        have e3 : (cleanReasons rs).isEmpty = true := by simp [hclean]
        have hval : process_upload fault table rs assets now
            = (Except.error (UploadError.validation
                "No valid reason names found after cleaning"), table) := by
          simp [process_upload, e1, e2, hL, e3]
        exact ⟨⟨by rw [hval], by rw [hval]; rfl, by rw [hval]; rfl⟩,
          fun h => absurd h hrs, fun _ h => absurd h has,
          fun _ _ h => absurd h hnone, fun _ _ _ _ => by rw [hval]⟩

/-- C7 witness. -/
theorem C7_witness :
    (process_upload (some Fault.createTemp) [] ["  "] [some 5] 0).2 = []
    ∧ isStorage
        (process_upload (some Fault.createTemp) [] ["  "] [some 5] 0).1
      = false :=
  ⟨((C7_validation_boundary (some Fault.createTemp) [] ["  "] [some 5] 0
      (Or.inr (Or.inr (Or.inr (by decide))))).1).1,
   ((C7_validation_boundary (some Fault.createTemp) [] ["  "] [some 5] 0
      (Or.inr (Or.inr (Or.inr (by decide))))).1).2.2⟩

/-- C8: the Candidate Builder trims every label, drops the ones that are
empty after trimming, and deduplicates the survivors by exact
case-sensitive match (the cleaned list is duplicate-free and contains
exactly the non-empty trimmed forms of the input labels); an input whose
labels are all empty or whitespace-only (with non-empty, int-convertible
targets) fails with ValidationError. -/
theorem C8_label_cleaning :
    (∀ rs : List String, (cleanReasons rs).Nodup)
    ∧ (∀ (rs : List String) (s : String),
        s ∈ cleanReasons rs ↔ s ≠ "" ∧ s ∈ rs.map (fun r => strip r))
    ∧ (∀ (fault : Option Fault) (table : List Row) (rs : List String)
        (ids : List Int) (now : Nat), rs ≠ [] → ids ≠ [] →
        (∀ r ∈ rs, strip r = "") →
        process_upload fault table rs (ids.map some) now
          = (Except.error (UploadError.validation
              "No valid reason names found after cleaning"), table)) := by
  refine ⟨cleanReasons_nodup, mem_cleanReasons, ?_⟩
  intro fault table rs ids now hrs hids hall
  have hclean : cleanReasons rs = [] := by
    cases h : cleanReasons rs with
    | nil => rfl
    | cons s l =>
      exfalso
      have hs : s ∈ cleanReasons rs := by
        rw [h]
        exact List.mem_cons_self s l
      obtain ⟨hne, hmem⟩ := (mem_cleanReasons rs s).1 hs
      obtain ⟨r, hr, rfl⟩ := List.mem_map.1 hmem
      exact hne (hall r hr)
  have e1 : rs.isEmpty = false := by simpa [List.isEmpty_iff] using hrs
  have e2 : (ids.map some).isEmpty = false := by
    simpa [List.isEmpty_iff] using hids
  have e3 : (cleanReasons rs).isEmpty = true := by simp [hclean]
  simp [process_upload, e1, e2, e3, convertIds_map_some]

/-- C8 witness. -/
theorem C8_witness :
    process_upload none [] ["  ", ""] ([(5 : Int)].map some) 0
      = (Except.error (UploadError.validation
          "No valid reason names found after cleaning"), []) :=
  C8_label_cleaning.2.2 none [] ["  ", ""] [(5 : Int)] 0
    (by decide) (by decide) (by decide)

/-- C9: writes are frame-bounded: the update phase preserves `name`,
`asset_id` and `created_at` of every row and either leaves a row untouched
or writes `delete_status_id = 0` (the only status both call sites stage)
and the fresh `updated_at`; both call sites stage only status-0 candidates;
and a successful transaction never deletes a row: the final key list is the
original key list followed by the keys of the freshly inserted records. -/
theorem C9_frame_bounded :
    (∀ (temp : List Candidate) (now : Nat) (m : Row),
      (applyUpdate temp now m).name = m.name
      ∧ (applyUpdate temp now m).asset_id = m.asset_id
      ∧ (applyUpdate temp now m).created_at = m.created_at)
    ∧ (∀ (temp : List Candidate) (now : Nat) (m : Row),
        (∀ t ∈ temp, t.delete_status_id = 0) →
        applyUpdate temp now m = m
        ∨ ((applyUpdate temp now m).delete_status_id = 0
           ∧ (applyUpdate temp now m).updated_at = now))
    ∧ (∀ (rs : List String) (ids : List Int) (c : Candidate),
        c ∈ buildRecords rs ids → c.delete_status_id = 0)
    ∧ (∀ (names : List String) (ids : List Int) (c : Candidate),
        c ∈ expand_per_asset names ids → c.delete_status_id = 0)
    ∧ (∀ (table : List Row) (temp : List Candidate) (now : Nat),
        (runTransaction none table temp now).2.map Row.key
          = table.map Row.key
            ++ (freshRecords table temp).map Candidate.key) := by
  refine ⟨?_, ?_, mem_buildRecords_dsid, mem_expand_dsid,
    runTransaction_none_keys⟩
  · intro temp now m
    unfold applyUpdate
    split
    · exact ⟨rfl, rfl, rfl⟩
    · exact ⟨rfl, rfl, rfl⟩
  · intro temp now m hall
    cases hf : temp.find? (fun t => rowMatches m t) with
    | none =>
      left
      simp only [applyUpdate, hf]
    | some t =>
      right
      constructor
      · have hm0 : t.delete_status_id = 0 :=
          hall t (List.mem_of_find?_eq_some hf)
        simp only [applyUpdate, hf]
        exact hm0
      · simp only [applyUpdate, hf]

/-- C9 witness. -/
theorem C9_witness :
    applyUpdate [Candidate.mk "A" 10 0] 5 (Row.mk "A" 10 7 1 1)
      = Row.mk "A" 10 7 1 1
    ∨ ((applyUpdate [Candidate.mk "A" 10 0] 5
          (Row.mk "A" 10 7 1 1)).delete_status_id = 0
       ∧ (applyUpdate [Candidate.mk "A" 10 0] 5
            (Row.mk "A" 10 7 1 1)).updated_at = 5) :=
  C9_frame_bounded.2.1 [Candidate.mk "A" 10 0] 5 (Row.mk "A" 10 7 1 1)
    (by decide)

/-- C10: a blank cell of the reason column reads as NaN, which the string
conversion renders as the literal text "nan"; it survives the empty-string
filter, so the loaded names contain "nan" and the candidate set includes a
"nan" label. -/
theorem C10_nan_label :
    load_excel [some "Jam", none] = ["Jam", "nan"]
    ∧ Candidate.mk "nan" 7 0
        ∈ expand_per_asset (load_excel [some "Jam", none]) [7] := by
  constructor
  · decide
  · decide

end Upload
